import Mathlib

/-!
Verification of the IPv4 validated-field descriptor from
`src/_jupyter/descriptors/.ipynb_checkpoints/validator-checkpoint.py`
(a Jupyter notebook cell).

The notebook defines:
  * `ValidationException(Exception)`
  * `PropertyWithValidator` with `__set_name__` (slot name `"_" + name`),
    `__get__` (fetch slot via `getattr`, `logging.info("__get__: %r", value)`,
    return), `__set__` (`self.validate(value)`, `logging.info("__set__: %r",
    value)`, `setattr` into the slot), and abstract `validate`
  * `IPv4(PropertyWithValidator)` whose `validate` raises unless the value is
    a `str` matching `re.compile(r'^(?:[0-9]\x7b1,3\x7d\.)\x7b3\x7d[0-9]\x7b1,3\x7d$').match(value)`
  * `class Flow` with two descriptor fields `src_ipv4 = IPv4()` and
    `dst_ipv4 = IPv4()`.

The embedding below models Python values as a sum of strings and ints (the
two kinds exercised by the notebook and the spec), instance dictionaries as
association lists from attribute names to values, exceptions as an error sum
type, and `logging.info(fmt, arg)` as appending a structural log record
(level, format string, argument) exactly as Python's logging module stores a
`LogRecord` before any rendering happens.

Python regular-expression semantics matter in one place: `re.match` anchors
at the start, and `$` matches at the end of the string *or just before a
newline at the end of the string*.  Hence the pattern accepts exactly the
strings of four dot-separated groups of 1-3 ASCII digits, optionally
followed by one trailing newline.  Because a digit is never `'.'`, the
backtracking search of the regex engine is equivalent to splitting the
string at every dot and checking each part; `quadMatch` below implements
that split and `quadMatch_iff_QuadL` proves it equivalent to the
declarative decomposition `QuadL`.
-/

deriving instance DecidableEq for Except

/-- A Python value as used by the notebook: a `str` or a non-string (modelled
by `int`, the non-string kind exercised in the spec's examples). -/
inductive Value where
  | str (s : String)
  | int (n : Int)
deriving DecidableEq, Repr

/-- Python `str(v)` / `"..".format(v)` conversion for the embedded values. -/
def pyStr : Value → String
  | .str s => s
  | .int n => toString n

/-- Python exceptions raised by the notebook's code: `ValidationException`
(carrying its message) and the `AttributeError` raised by `getattr` on a
missing attribute (carrying the attribute name). -/
inductive PyError where
  | validationException (msg : String)
  | attributeError (name : String)
deriving DecidableEq, Repr

/-- The character class `[0-9]` of the pattern. -/
def isDigitCh (c : Char) : Bool := '0' ≤ c && c ≤ '9'

/-- One group of the pattern: 1 to 3 characters, all in `[0-9]`. -/
def isOctet (g : List Char) : Bool :=
  decide (1 ≤ g.length) && decide (g.length ≤ 3) && g.all isDigitCh

/-- Split a character list at every `'.'` (Python `value.split('.')`):
always returns at least one part, and `'.'` occurs in no part. -/
def splitDots : List Char → List (List Char)
  | [] => [[]]
  | c :: rest =>
    if c = '.' then [] :: splitDots rest
    else
      match splitDots rest with
      | [] => [[c]]
      | g :: gs => (c :: g) :: gs

/-- Inverse of `splitDots`: interleave the parts with `'.'`. -/
def joinDots : List (List Char) → List Char
  | [] => []
  | [g] => g
  | g :: g2 :: gs => g ++ '.' :: joinDots (g2 :: gs)

/-- Decision procedure for the anchored pattern
`(?:[0-9]\x7b1,3\x7d\.)\x7b3\x7d[0-9]\x7b1,3\x7d` spanning the whole list: exactly four
dot-separated parts, each a 1-3 digit group. -/
def quadMatch (l : List Char) : Bool :=
  let parts := splitDots l
  parts.length == 4 && parts.all isOctet

/-- Drop a single trailing newline if present (the position where Python's
`$` is also allowed to match). -/
def dropTrailingNL (l : List Char) : List Char :=
  if l.getLast? = some '\n' then l.dropLast else l

/-- Truthiness of `re.compile(r'^(?:[0-9]\x7b1,3\x7d\.)\x7b3\x7d[0-9]\x7b1,3\x7d$').match(l)`
under Python semantics: the quad pattern must cover the string up to the
position of `$`, which is the end of the string or just before one trailing
newline. -/
def ipv4_pattern_match (l : List Char) : Bool :=
  quadMatch l || quadMatch (dropTrailingNL l)

/-- `IPv4.validate` from the notebook:
raises `ValidationException("\x7b\x7d must be a string to be a valid ipv4
address".format(value))` when `type(value) is not str`, then raises
`ValidationException("\x7b\x7d is not a valid ipv4 address".format(value))` when the
compiled pattern does not match; otherwise returns normally. -/
def IPv4.validate (value : Value) : Except PyError Unit :=
  match value with
  | .int _ =>
      .error (.validationException
        (pyStr value ++ " must be a string to be a valid ipv4 address"))
  | .str s =>
      if ipv4_pattern_match s.data then .ok ()
      else .error (.validationException (s ++ " is not a valid ipv4 address"))

/-- Declarative form of the anchored quad pattern on character lists: a
decomposition into four all-digit groups of 1-3 characters separated by
single dots.  This is the language of the regex
`^(?:[0-9]\x7b1,3\x7d\.)\x7b3\x7d[0-9]\x7b1,3\x7d$` read with both anchors strict. -/
def QuadL (l : List Char) : Prop :=
  ∃ a b c d : List Char,
    isOctet a = true ∧ isOctet b = true ∧ isOctet c = true ∧ isOctet d = true ∧
    l = a ++ '.' :: (b ++ '.' :: (c ++ '.' :: d))

theorem splitDots_ne_nil (l : List Char) : splitDots l ≠ [] := by
  cases l with
  | nil => simp [splitDots]
  | cons c rest =>
    simp only [splitDots]
    split
    · simp
    · split <;> simp

theorem joinDots_splitDots (l : List Char) : joinDots (splitDots l) = l := by
  induction l with
  | nil => rfl
  | cons c rest ih =>
    simp only [splitDots]
    split
    · rename_i hc
      subst hc
      rcases hr : splitDots rest with _ | ⟨g, gs⟩
      · exact absurd hr (splitDots_ne_nil rest)
      · rw [hr] at ih
        cases gs with
        | nil => simp only [joinDots] at ih ⊢; simp [ih]
        | cons g2 gs2 => simp only [joinDots] at ih ⊢; simp [ih]
    · rcases hr : splitDots rest with _ | ⟨g, gs⟩
      · exact absurd hr (splitDots_ne_nil rest)
      · rw [hr] at ih
        cases gs with
        | nil => simp only [joinDots] at ih ⊢; rw [ih]
        | cons g2 gs2 =>
          simp only [joinDots] at ih ⊢
          rw [List.cons_append, ih]

theorem splitDots_append_dot (a rest : List Char) (ha : '.' ∉ a) :
    splitDots (a ++ '.' :: rest) = a :: splitDots rest := by
  induction a with
  | nil => simp [splitDots]
  | cons c a' ih =>
    have hc : c ≠ '.' := fun h => ha (h ▸ List.mem_cons_self c a')
    have ha' : '.' ∉ a' := fun h => ha (List.mem_cons_of_mem c h)
    simp only [List.cons_append, splitDots, if_neg hc, List.append_eq]
    rw [ih ha']

theorem splitDots_no_dot (d : List Char) (hd : '.' ∉ d) :
    splitDots d = [d] := by
  induction d with
  | nil => rfl
  | cons c d' ih =>
    have hc : c ≠ '.' := fun h => hd (h ▸ List.mem_cons_self c d')
    have hd' : '.' ∉ d' := fun h => hd (List.mem_cons_of_mem c h)
    simp only [splitDots, if_neg hc, ih hd']

theorem isOctet_no_dot (g : List Char) (hg : isOctet g = true) : '.' ∉ g := by
  intro hmem
  have hall := (Bool.and_eq_true _ _).mp hg |>.2
  have := List.all_eq_true.mp hall '.' hmem
  simp [isDigitCh] at this

/-- The split-based decision procedure decides exactly the declarative
quad-pattern language. -/
theorem quadMatch_iff_QuadL (l : List Char) : quadMatch l = true ↔ QuadL l := by
  constructor
  · intro h
    simp only [quadMatch, Bool.and_eq_true, beq_iff_eq] at h
    obtain ⟨hlen, hall⟩ := h
    rcases hp : splitDots l with _ | ⟨a, _ | ⟨b, _ | ⟨c, _ | ⟨d, _ | ⟨e, tl⟩⟩⟩⟩⟩ <;>
      rw [hp] at hlen <;> simp at hlen
    rw [hp] at hall
    simp only [List.all_cons, List.all_nil, Bool.and_eq_true, and_true] at hall
    obtain ⟨ha, hb, hc, hd⟩ := hall
    refine ⟨a, b, c, d, ha, hb, hc, hd, ?_⟩
    have hj := joinDots_splitDots l
    rw [hp] at hj
    simp only [joinDots] at hj
    exact hj.symm
  · rintro ⟨a, b, c, d, ha, hb, hc, hd, rfl⟩
    have h1 : splitDots (a ++ '.' :: (b ++ '.' :: (c ++ '.' :: d)))
        = a :: b :: c :: [d] := by
      rw [splitDots_append_dot a _ (isOctet_no_dot a ha),
          splitDots_append_dot b _ (isOctet_no_dot b hb),
          splitDots_append_dot c _ (isOctet_no_dot c hc),
          splitDots_no_dot d (isOctet_no_dot d hd)]
    simp [quadMatch, h1, ha, hb, hc, hd]

/-- The Python truthiness of `pattern.match(l)` holds exactly on the strict
quad language plus its one-trailing-newline variants (the `$` quirk). -/
theorem ipv4_pattern_match_iff (l : List Char) :
    ipv4_pattern_match l = true ↔
      QuadL l ∨ ∃ t : List Char, l = t ++ ['\n'] ∧ QuadL t := by
  by_cases h : l.getLast? = some '\n'
  · have hne : l ≠ [] := by
      intro he; rw [he] at h; simp at h
    have hdecomp : l.dropLast ++ ['\n'] = l := by
      have h1 := List.dropLast_append_getLast hne
      have h2 : l.getLast hne = '\n' := by
        have := List.getLast?_eq_getLast l hne
        rw [this] at h
        exact (Option.some.injEq _ _).mp h
      rw [h2] at h1
      exact h1
    have hsecond : (∃ t : List Char, l = t ++ ['\n'] ∧ QuadL t) ↔ QuadL l.dropLast := by
      constructor
      · rintro ⟨t, ht, hq⟩
        have : t = l.dropLast := by
          have := ht.symm.trans hdecomp.symm
          exact (List.append_left_inj ['\n']).mp this.symm |>.symm
        rwa [this] at hq
      · intro hq
        exact ⟨l.dropLast, hdecomp.symm, hq⟩
    simp only [ipv4_pattern_match, dropTrailingNL, if_pos h, Bool.or_eq_true,
      quadMatch_iff_QuadL, hsecond]
  · have hsecond : ¬ ∃ t : List Char, l = t ++ ['\n'] ∧ QuadL t := by
      rintro ⟨t, ht, -⟩
      rw [ht, List.getLast?_concat] at h
      exact h rfl
    simp only [ipv4_pattern_match, dropTrailingNL, if_neg h, Bool.or_eq_true,
      quadMatch_iff_QuadL, or_self]
    constructor
    · intro hq
      exact Or.inl hq
    · rintro (hq | hq)
      · exact hq
      · exact absurd hq hsecond

/-- Python's numeric `logging.INFO` level (20); `logging.info` logs at it. -/
def INFO : Nat := 20

/-- One record handed to the logging module: `logging.info(fmt, arg)` stores
the format string and the argument unrendered (Python logging defers
%-formatting), at level `INFO`. -/
structure LogEntry where
  level : Nat
  fmt : String
  arg : Value
deriving DecidableEq, Repr

/-- CPython `repr` escape of a single character inside a single-quoted
string literal: backslash, the quote itself, and the common control
characters; every other character of the values exercised here (printable
ASCII) is passed through. -/
def pyEscapeChar (c : Char) : List Char :=
  if c = '\\' then ['\\', '\\']
  else if c = '\'' then ['\\', '\'']
  else if c = '\n' then ['\\', 'n']
  else if c = '\r' then ['\\', 'r']
  else if c = '\t' then ['\\', 't']
  else [c]

/-- Python `repr(v)`, the conversion applied by the `%r` directive: an int
prints as its decimal literal; a string prints single-quoted with escaped
contents.  (CPython prefers double quotes only for strings that contain a
single quote and no double quote; no such string appears in the notebook or
the spec's examples.) -/
def pyRepr : Value → String
  | .str s => ⟨'\'' :: (s.data.map pyEscapeChar).flatten ++ ['\'']⟩
  | .int n => toString n

/-- Render a log record's message the way a logging handler would: Python
%-formatting with the single `%r` directive (the only directive the
notebook's format strings contain) replaced by `repr(arg)`. -/
def pyFormatR : List Char → Value → List Char
  | [], _ => []
  | '%' :: 'r' :: rest, v => (pyRepr v).data ++ rest
  | c :: rest, v => c :: pyFormatR rest v

/-- The fully rendered message of a log record. -/
def renderEntry (e : LogEntry) : String := ⟨pyFormatR e.fmt.data e.arg⟩

/-- A Python instance's attribute dictionary (`obj.__dict__`): attribute
names mapped to values, as an association list. -/
abbrev ObjDict : Type := List (String × Value)

/-- Python `getattr(obj, name)` restricted to instance attributes (the slot
names used here, prefixed with an underscore, never appear on the class):
`none` models the `AttributeError` case. -/
def py_getattr : ObjDict → String → Option Value
  | [], _ => none
  | (k, v) :: rest, n => if k = n then some v else py_getattr rest n

/-- Python `setattr(obj, name, value)`: overwrite the binding if the name is
present, append it otherwise. -/
def py_setattr : ObjDict → String → Value → ObjDict
  | [], n, v => [(n, v)]
  | (k, w) :: rest, n, v =>
    if k = n then (k, v) :: rest else (k, w) :: py_setattr rest n v

/-- The descriptor's own state after `__set_name__`: the private slot name
it stores under. -/
structure PropertyWithValidator where
  property_name : String
deriving DecidableEq, Repr

/-- `__set_name__(self, owner, name)`: `self.property_name = "_" + name`. -/
def PropertyWithValidator.set_name (name : String) : PropertyWithValidator :=
  ⟨"_" ++ name⟩

/-- `__get__(self, obj, obj_type=None)`:
`value = getattr(obj, self.property_name)` (an absent slot raises
`AttributeError` naming the attribute, before anything is logged);
`logging.info("__get__: %r", value)`; `return value`.  The result pairs the
returned value or propagated error with the log records emitted. -/
def PropertyWithValidator.get (self : PropertyWithValidator) (obj : ObjDict) :
    Except PyError Value × List LogEntry :=
  match py_getattr obj self.property_name with
  | none => (.error (.attributeError self.property_name), [])
  | some v => (.ok v, [⟨INFO, "__get__: %r", v⟩])

/-- `__set__(self, obj, value)`:
`self.validate(value)` (a raised `ValidationException` propagates before
anything is logged or stored); `logging.info("__set__: %r", value)`;
`setattr(obj, self.property_name, value)`.  Parametrised by the concrete
`validate` (abstract in the base class). -/
def PropertyWithValidator.set (self : PropertyWithValidator)
    (validate : Value → Except PyError Unit) (obj : ObjDict) (value : Value) :
    Except PyError ObjDict × List LogEntry :=
  match validate value with
  | .error e => (.error e, [])
  | .ok () =>
      (.ok (py_setattr obj self.property_name value),
       [⟨INFO, "__set__: %r", value⟩])

/-- The two validated fields of `class Flow`. -/
inductive FieldName where
  | src_ipv4
  | dst_ipv4
deriving DecidableEq, Repr

/-- The descriptor instances `src_ipv4 = IPv4()` and `dst_ipv4 = IPv4()`
after Python ran `__set_name__` at class creation. -/
def Flow.field : FieldName → PropertyWithValidator
  | .src_ipv4 => PropertyWithValidator.set_name "src_ipv4"
  | .dst_ipv4 => PropertyWithValidator.set_name "dst_ipv4"

/-- `Flow()`: a fresh instance with an empty attribute dictionary. -/
def Flow.new : ObjDict := []

/-- Reading `flow.f` through the descriptor. -/
def Flow.get (obj : ObjDict) (f : FieldName) :
    Except PyError Value × List LogEntry :=
  (Flow.field f).get obj

/-- Writing `flow.f = v` through the descriptor, with `IPv4.validate`. -/
def Flow.set (obj : ObjDict) (f : FieldName) (v : Value) :
    Except PyError ObjDict × List LogEntry :=
  (Flow.field f).set IPv4.validate obj v

/-- One client operation on a `Flow` instance. -/
inductive Op where
  | get (f : FieldName)
  | set (f : FieldName) (v : Value)

/-- Effect of one operation on the instance dictionary: a read never writes,
and a raising write propagates its exception before any store, leaving the
dictionary unchanged. -/
def runOp (obj : ObjDict) : Op → ObjDict
  | .get _ => obj
  | .set f v =>
    match (Flow.set obj f v).1 with
    | .ok o2 => o2
    | .error _ => obj

/-- Effect of a sequence of operations, oldest first. -/
def runOps (obj : ObjDict) (ops : List Op) : ObjDict :=
  ops.foldl runOp obj

theorem py_getattr_setattr_same (obj : ObjDict) (n : String) (v : Value) :
    py_getattr (py_setattr obj n v) n = some v := by
  induction obj with
  | nil => simp [py_setattr, py_getattr]
  | cons p rest ih =>
    obtain ⟨k, w⟩ := p
    by_cases hk : k = n
    · simp [py_setattr, py_getattr, hk]
    · simp [py_setattr, py_getattr, hk, ih]

theorem py_getattr_setattr_ne (obj : ObjDict) (k n : String) (v : Value)
    (h : k ≠ n) : py_getattr (py_setattr obj k v) n = py_getattr obj n := by
  induction obj with
  | nil => simp [py_setattr, py_getattr, h]
  | cons p rest ih =>
    obtain ⟨k2, w⟩ := p
    by_cases hk : k2 = k
    · subst hk
      simp [py_setattr, py_getattr, h]
    · by_cases hn : k2 = n
      · simp [py_setattr, py_getattr, hk, hn, Ne.symm h]
      · simp [py_setattr, py_getattr, hk, hn, ih]

theorem py_getattr_setattr_cases (obj : ObjDict) (k n : String) (w v : Value)
    (h : py_getattr (py_setattr obj k w) n = some v) :
    v = w ∨ py_getattr obj n = some v := by
  by_cases hk : k = n
  · subst hk
    rw [py_getattr_setattr_same] at h
    exact Or.inl (Option.some.injEq _ _ ▸ h).symm
  · rw [py_getattr_setattr_ne obj k n w hk] at h
    exact Or.inr h

/-- Inversion of a successful validation: the value was a string and the
compiled pattern matched it. -/
theorem validate_ok_inv (v : Value) (h : IPv4.validate v = .ok ()) :
    ∃ s : String, v = Value.str s ∧ ipv4_pattern_match s.data = true := by
  cases v with
  | int n => simp [IPv4.validate] at h
  | str s =>
    refine ⟨s, rfl, ?_⟩
    by_cases hm : ipv4_pattern_match s.data
    · exact hm
    · simp [IPv4.validate, hm] at h

/-- Distinct fields of `Flow` got distinct private slot names from
`__set_name__`. -/
theorem Flow.field_name_ne (f g : FieldName) (h : f ≠ g) :
    (Flow.field f).property_name ≠ (Flow.field g).property_name := by
  cases f <;> cases g <;> first
    | exact absurd rfl h
    | decide

theorem pyFormatR_get (v : Value) :
    pyFormatR "__get__: %r".data v = "__get__: ".data ++ (pyRepr v).data := by
  simp [pyFormatR]

theorem pyFormatR_set (v : Value) :
    pyFormatR "__set__: %r".data v = "__set__: ".data ++ (pyRepr v).data := by
  simp [pyFormatR]

theorem renderEntry_get (v : Value) :
    renderEntry ⟨INFO, "__get__: %r", v⟩ = "__get__: " ++ pyRepr v := by
  apply String.ext
  rw [String.data_append]
  exact pyFormatR_get v

theorem renderEntry_set (v : Value) :
    renderEntry ⟨INFO, "__set__: %r", v⟩ = "__set__: " ++ pyRepr v := by
  apply String.ext
  rw [String.data_append]
  exact pyFormatR_set v

/-- Every character of a word of the strict quad language is a dot or a
digit; in particular no such word contains a newline. -/
theorem QuadL_mem_dot_or_digit (m : List Char) (h : QuadL m) (ch : Char)
    (hch : ch ∈ m) : ch = '.' ∨ isDigitCh ch = true := by
  obtain ⟨a, b, c, d, ha, hb, hc, hd, hm⟩ := h
  have oct : ∀ g : List Char, isOctet g = true → ch ∈ g → isDigitCh ch = true :=
    fun g hg hmem => List.all_eq_true.mp ((Bool.and_eq_true _ _).mp hg).2 ch hmem
  subst hm
  simp only [List.mem_append, List.mem_cons] at hch
  rcases hch with h1 | h1 | h1 | h1 | h1 | h1 | h1
  · exact Or.inr (oct a ha h1)
  · exact Or.inl h1
  · exact Or.inr (oct b hb h1)
  · exact Or.inl h1
  · exact Or.inr (oct c hc h1)
  · exact Or.inl h1
  · exact Or.inr (oct d hd h1)

/-- Appending a newline to anything leaves the strict quad language. -/
theorem not_QuadL_append_newline (l : List Char) : ¬ QuadL (l ++ ['\n']) := by
  intro h
  have hmem : '\n' ∈ l ++ ['\n'] := by simp
  rcases QuadL_mem_dot_or_digit _ h '\n' hmem with h1 | h1
  · exact absurd h1 (by decide)
  · simp [isDigitCh] at h1

/-- C1: for every record and every value the validator accepts, a successful
`set(r, v)` stores exactly the accepted value: a subsequent `get(r)` returns
`v` unmodified. -/
theorem C1_set_then_get_returns_value (obj o2 : ObjDict) (f : FieldName)
    (v : Value) (lg : List LogEntry)
    (h : Flow.set obj f v = (Except.ok o2, lg)) :
    (Flow.get o2 f).1 = Except.ok v := by
  unfold Flow.set PropertyWithValidator.set at h
  cases hv : IPv4.validate v with
  | error e =>
    rw [hv] at h
    simp at h
  | ok u =>
    cases u
    rw [hv] at h
    simp only [Prod.mk.injEq, Except.ok.injEq] at h
    obtain ⟨h1, -⟩ := h
    subst h1
    unfold Flow.get PropertyWithValidator.get
    rw [py_getattr_setattr_same]

/-- Witness for C1 at the spec's example: `set(flow, "2.2.2.2")` succeeds
and `get(flow)` returns `"2.2.2.2"`. -/
theorem C1_witness :
    Flow.set Flow.new FieldName.src_ipv4 (Value.str "2.2.2.2") =
      (Except.ok [("_src_ipv4", Value.str "2.2.2.2")],
       [LogEntry.mk INFO "__set__: %r" (Value.str "2.2.2.2")]) ∧
    (Flow.get [("_src_ipv4", Value.str "2.2.2.2")] FieldName.src_ipv4).1 =
      Except.ok (Value.str "2.2.2.2") :=
  ⟨by decide,
   C1_set_then_get_returns_value Flow.new _ _ _
     [LogEntry.mk INFO "__set__: %r" (Value.str "2.2.2.2")] (by decide)⟩

/-- C2: every string of the anchored pattern language (four dot-separated
groups of 1-3 decimal digits) is accepted by `validate`; octet values
greater than 255 are not rejected. -/
theorem C2_pattern_strings_accepted (s : String) (h : QuadL s.data) :
    IPv4.validate (Value.str s) = Except.ok () := by
  have hm : ipv4_pattern_match s.data = true :=
    (ipv4_pattern_match_iff s.data).mpr (Or.inl h)
  simp [IPv4.validate, hm]

/-- Witness for C2 at `"999.999.999.999"`, whose octets all exceed 255. -/
theorem C2_witness :
    IPv4.validate (Value.str "999.999.999.999") = Except.ok () :=
  C2_pattern_strings_accepted "999.999.999.999"
    ((quadMatch_iff_QuadL _).mp (by decide))

/-- C3 counterexample: `"1.2.3.4\n"` is not in the anchored pattern language
(four dot-separated groups of 1-3 digits with both ends strict), yet
`validate` accepts it, because Python's `$` also matches just before a
trailing newline.  So `validate` does accept a string outside the pattern. -/
theorem C3_counterexample_trailing_newline :
    IPv4.validate (Value.str "1.2.3.4\n") = Except.ok () ∧
    ¬ QuadL "1.2.3.4\n".data := by
  constructor
  · decide
  · intro h
    exact absurd ((quadMatch_iff_QuadL _).mpr h) (by decide)

/-- C3 amended: `validate` accepts exactly the pattern language extended by
one optional trailing newline (where Python's `$` may also match); all other
strings, and all non-string inputs, fail with a `ValidationException`. -/
theorem C3_amended_validate_characterisation (v : Value) :
    (IPv4.validate v = Except.ok () ↔
      ∃ s : String, v = Value.str s ∧
        (QuadL s.data ∨ ∃ t : List Char, s.data = t ++ ['\n'] ∧ QuadL t)) ∧
    (∀ e : PyError, IPv4.validate v = Except.error e →
      ∃ msg : String, e = PyError.validationException msg) := by
  constructor
  · cases v with
    | int n => simp [IPv4.validate]
    | str s =>
      by_cases hm : ipv4_pattern_match s.data = true
      · constructor
        · intro _
          exact ⟨s, rfl, (ipv4_pattern_match_iff s.data).mp hm⟩
        · intro _
          simp [IPv4.validate, hm]
      · constructor
        · intro hok
          exfalso
          simp [IPv4.validate, hm] at hok
        · rintro ⟨s2, hs2, hq⟩
          exfalso
          have hss : s = s2 := by injection hs2
          subst hss
          exact hm ((ipv4_pattern_match_iff s.data).mpr hq)
  · intro e he
    cases v with
    | int n =>
      simp only [IPv4.validate, Except.error.injEq] at he
      exact ⟨_, he.symm⟩
    | str s =>
      by_cases hm : ipv4_pattern_match s.data = true
      · simp [IPv4.validate, hm] at he
      · simp only [IPv4.validate, hm, if_neg, Bool.false_eq_true,
          if_false, Except.error.injEq] at he
        exact ⟨_, he.symm⟩

/-- Witness for C3's amended statement: `"1.2.3.4"` is accepted through the
characterisation, and the failure on `"5.5.5."` is a `ValidationException`. -/
theorem C3_witness :
    IPv4.validate (Value.str "1.2.3.4") = Except.ok () ∧
    ∃ msg : String,
      PyError.validationException "5.5.5. is not a valid ipv4 address" =
        PyError.validationException msg :=
  ⟨(C3_amended_validate_characterisation (Value.str "1.2.3.4")).1.mpr
      ⟨"1.2.3.4", rfl, Or.inl ((quadMatch_iff_QuadL _).mp (by decide))⟩,
   (C3_amended_validate_characterisation (Value.str "5.5.5.")).2 _ (by decide)⟩

/-- C4: a write rejected by the validator propagates the
`ValidationException`, emits no log record, and stores nothing: the instance
dictionary, and with it the field's previous value or unset state, is
unchanged. -/
theorem C4_failed_set_stores_nothing (obj : ObjDict) (f : FieldName)
    (v : Value) (e : PyError) (h : IPv4.validate v = Except.error e) :
    Flow.set obj f v = (Except.error e, []) ∧ runOp obj (Op.set f v) = obj := by
  have h1 : Flow.set obj f v = (Except.error e, []) := by
    unfold Flow.set PropertyWithValidator.set
    rw [h]
  refine ⟨h1, ?_⟩
  simp only [runOp, h1]

/-- Witness for C4 at the spec's example: `set(flow, "5.5.5.")` fails and the
previously stored `"2.2.2.2"` (and the unset other field) survive. -/
theorem C4_witness :
    IPv4.validate (Value.str "5.5.5.") =
      Except.error (.validationException "5.5.5. is not a valid ipv4 address") ∧
    (Flow.set [("_src_ipv4", Value.str "2.2.2.2")] FieldName.dst_ipv4
        (Value.str "5.5.5.") =
      (Except.error (.validationException "5.5.5. is not a valid ipv4 address"),
       []) ∧
     runOp [("_src_ipv4", Value.str "2.2.2.2")]
        (Op.set FieldName.dst_ipv4 (Value.str "5.5.5.")) =
       [("_src_ipv4", Value.str "2.2.2.2")]) :=
  ⟨by decide, C4_failed_set_stores_nothing _ _ _ _ (by decide)⟩

/-- A slot that is absent stays absent across any sequence of operations
containing no validator-accepted write to its field. -/
theorem runOps_preserves_absent (f : FieldName) (ops : List Op) :
    ∀ obj : ObjDict,
      py_getattr obj (Flow.field f).property_name = none →
      (∀ v : Value, Op.set f v ∈ ops → ∃ e, IPv4.validate v = Except.error e) →
      py_getattr (runOps obj ops) (Flow.field f).property_name = none := by
  induction ops with
  | nil =>
    intro obj h0 _
    exact h0
  | cons op rest ih =>
    intro obj h0 h
    have hrest : ∀ v : Value, Op.set f v ∈ rest →
        ∃ e, IPv4.validate v = Except.error e :=
      fun v hv => h v (List.mem_cons_of_mem _ hv)
    have hstep : py_getattr (runOp obj op) (Flow.field f).property_name = none := by
      cases op with
      | get g => exact h0
      | set g v =>
        by_cases hg : g = f
        · subst hg
          obtain ⟨e, he⟩ := h v (List.mem_cons_self _ _)
          simp only [runOp, Flow.set, PropertyWithValidator.set, he]
          exact h0
        · cases hv : IPv4.validate v with
          | error e =>
            simp only [runOp, Flow.set, PropertyWithValidator.set, hv]
            exact h0
          | ok u =>
            cases u
            simp only [runOp, Flow.set, PropertyWithValidator.set, hv]
            rw [py_getattr_setattr_ne _ _ _ _ (Flow.field_name_ne g f hg)]
            exact h0
    simp only [runOps, List.foldl_cons]
    exact ih (runOp obj op) hstep hrest

/-- C5: on a record whose field was never successfully written (any number of
rejected writes and other operations are allowed), `get` raises the
attribute-missing condition (`AttributeError` naming the private slot) and
returns no value, logging nothing. -/
theorem C5_get_before_write_fails (ops : List Op) (f : FieldName)
    (h : ∀ v : Value, Op.set f v ∈ ops → ∃ e, IPv4.validate v = Except.error e) :
    Flow.get (runOps Flow.new ops) f =
      (Except.error (PyError.attributeError (Flow.field f).property_name), []) := by
  have habs := runOps_preserves_absent f ops Flow.new rfl h
  unfold Flow.get PropertyWithValidator.get
  rw [habs]

/-- Witness for C5: a fresh `Flow` that saw one rejected write (`5555`, a
non-string) still has no stored value, so the read raises. -/
theorem C5_witness :
    Flow.get (runOps Flow.new [Op.set FieldName.src_ipv4 (Value.int 5555)])
        FieldName.src_ipv4 =
      (Except.error (PyError.attributeError
          (Flow.field FieldName.src_ipv4).property_name), []) := by
  apply C5_get_before_write_fails
  intro v hv
  simp only [List.mem_singleton] at hv
  injection hv with _ hv2
  subst hv2
  exact ⟨PyError.validationException
    "5555 must be a string to be a valid ipv4 address", by decide⟩

/-- C6: every `ValidationException` message starts with `str(value)` (naming
the rejected value) and states the reason: "must be a string" for a
non-string input, "not a valid ipv4 address" for a string of the wrong
shape. -/
theorem C6_error_message_contents (v : Value) (e : PyError)
    (h : IPv4.validate v = Except.error e) :
    ∃ msg : String, e = PyError.validationException msg ∧
      (pyStr v).data <+: msg.data ∧
      (match v with
        | Value.int _ => "must be a string".data <:+: msg.data
        | Value.str _ => "not a valid ipv4 address".data <:+: msg.data) := by
  cases v with
  | int n =>
    simp only [IPv4.validate, Except.error.injEq] at h
    refine ⟨pyStr (Value.int n) ++ " must be a string to be a valid ipv4 address",
      h.symm, ?_, ?_⟩
    · exact ⟨" must be a string to be a valid ipv4 address".data,
        (String.data_append _ _).symm⟩
    · refine ⟨(pyStr (Value.int n)).data ++ [' '],
        " to be a valid ipv4 address".data, ?_⟩
      rw [String.data_append, List.append_assoc, List.append_assoc]
      congr 1
  | str s =>
    by_cases hm : ipv4_pattern_match s.data = true
    · simp [IPv4.validate, hm] at h
    · simp only [IPv4.validate, hm, Bool.false_eq_true, if_false,
        Except.error.injEq] at h
      refine ⟨s ++ " is not a valid ipv4 address", h.symm, ?_, ?_⟩
      · exact ⟨" is not a valid ipv4 address".data, (String.data_append _ _).symm⟩
      · refine ⟨s.data ++ " is ".data, [], ?_⟩
        rw [String.data_append, List.append_assoc, List.append_assoc]
        congr 1

/-- Witness for C6 at the spec's example `set(flow, 5555)`: the message names
`5555` and mentions "must be a string". -/
theorem C6_witness :
    ∃ msg : String,
      PyError.validationException
          "5555 must be a string to be a valid ipv4 address" =
        PyError.validationException msg ∧
      (pyStr (Value.int 5555)).data <+: msg.data ∧
      "must be a string".data <:+: msg.data :=
  C6_error_message_contents (Value.int 5555) _ (by decide)

/-- C7 counterexample: the record emitted by a successful get has format
string `"__get__: %r"`, rendering as `"__get__: '2.2.2.2'"` — a message that
does not even contain `"get: "` (nor does the set message contain
`"set: "`), so it is not of the claimed shape `"get: <value>"`. -/
theorem C7_counterexample_message_shape :
    Flow.get [("_src_ipv4", Value.str "2.2.2.2")] FieldName.src_ipv4 =
      (Except.ok (Value.str "2.2.2.2"),
       [LogEntry.mk INFO "__get__: %r" (Value.str "2.2.2.2")]) ∧
    renderEntry (LogEntry.mk INFO "__get__: %r" (Value.str "2.2.2.2")) =
      "__get__: '2.2.2.2'" ∧
    ¬ ("get: ".data <:+:
        (renderEntry (LogEntry.mk INFO "__get__: %r" (Value.str "2.2.2.2"))).data) ∧
    ¬ ("set: ".data <:+:
        (renderEntry (LogEntry.mk INFO "__set__: %r" (Value.str "2.2.2.2"))).data) := by
  refine ⟨by decide, by decide, ?_, ?_⟩ <;> decide

/-- C7 amended: every successful get emits exactly one log record, at level
`INFO`, with format string `"__get__: %r"` and the returned value as its
argument, rendering as `"__get__: "` followed by `repr(value)`; every
successful set emits exactly one such record with `"__set__: %r"` and the
accepted value, rendering as `"__set__: "` followed by `repr(value)`. -/
theorem C7_amended_log_records :
    (∀ (obj : ObjDict) (f : FieldName) (v : Value) (lg : List LogEntry),
        Flow.get obj f = (Except.ok v, lg) →
        lg = [LogEntry.mk INFO "__get__: %r" v] ∧
        renderEntry (LogEntry.mk INFO "__get__: %r" v) = "__get__: " ++ pyRepr v) ∧
    (∀ (obj o2 : ObjDict) (f : FieldName) (v : Value) (lg : List LogEntry),
        Flow.set obj f v = (Except.ok o2, lg) →
        lg = [LogEntry.mk INFO "__set__: %r" v] ∧
        renderEntry (LogEntry.mk INFO "__set__: %r" v) = "__set__: " ++ pyRepr v) := by
  constructor
  · intro obj f v lg h
    refine ⟨?_, renderEntry_get v⟩
    unfold Flow.get PropertyWithValidator.get at h
    cases hg : py_getattr obj (Flow.field f).property_name with
    | none =>
      rw [hg] at h
      simp at h
    | some w =>
      rw [hg] at h
      simp only [Prod.mk.injEq, Except.ok.injEq] at h
      obtain ⟨h1, h2⟩ := h
      subst h1
      exact h2.symm
  · intro obj o2 f v lg h
    refine ⟨?_, renderEntry_set v⟩
    unfold Flow.set PropertyWithValidator.set at h
    cases hv : IPv4.validate v with
    | error e =>
      rw [hv] at h
      simp at h
    | ok u =>
      cases u
      rw [hv] at h
      simp only [Prod.mk.injEq, Except.ok.injEq] at h
      exact h.2.symm

/-- Witness for C7's amended statement at the notebook's value `"2.2.2.2"`. -/
theorem C7_witness :
    renderEntry (LogEntry.mk INFO "__get__: %r" (Value.str "2.2.2.2")) =
      "__get__: " ++ pyRepr (Value.str "2.2.2.2") ∧
    renderEntry (LogEntry.mk INFO "__set__: %r" (Value.str "2.2.2.2")) =
      "__set__: " ++ pyRepr (Value.str "2.2.2.2") :=
  ⟨(C7_amended_log_records.1 [("_src_ipv4", Value.str "2.2.2.2")]
      FieldName.src_ipv4 (Value.str "2.2.2.2")
      [LogEntry.mk INFO "__get__: %r" (Value.str "2.2.2.2")] (by decide)).2,
   (C7_amended_log_records.2 Flow.new [("_src_ipv4", Value.str "2.2.2.2")]
      FieldName.src_ipv4 (Value.str "2.2.2.2")
      [LogEntry.mk INFO "__set__: %r" (Value.str "2.2.2.2")] (by decide)).2⟩

/-- C8 counterexample: the reachable write `set(flow, "1.2.3.4\n")` stores
`"1.2.3.4\n"`, a value outside the strict shape
`digits.digits.digits.digits`. -/
theorem C8_counterexample_stored_newline :
    py_getattr (runOps Flow.new
        [Op.set FieldName.src_ipv4 (Value.str "1.2.3.4\n")]) "_src_ipv4" =
      some (Value.str "1.2.3.4\n") ∧
    ¬ QuadL "1.2.3.4\n".data := by
  constructor
  · decide
  · intro h
    exact absurd ((quadMatch_iff_QuadL _).mpr h) (by decide)

/-- Invariant carried by reachable instance dictionaries: every stored value
was accepted by the validator. -/
def StoredOK (obj : ObjDict) : Prop :=
  ∀ (n : String) (v : Value), py_getattr obj n = some v →
    ∃ s : String, v = Value.str s ∧ ipv4_pattern_match s.data = true

theorem runOp_preserves_StoredOK (obj : ObjDict) (op : Op)
    (h : StoredOK obj) : StoredOK (runOp obj op) := by
  cases op with
  | get f => exact h
  | set f v =>
    cases hv : IPv4.validate v with
    | error e =>
      simp only [runOp, Flow.set, PropertyWithValidator.set, hv]
      exact h
    | ok u =>
      cases u
      obtain ⟨s, rfl, hs⟩ := validate_ok_inv v hv
      simp only [runOp, Flow.set, PropertyWithValidator.set, hv]
      intro n w hw
      rcases py_getattr_setattr_cases _ _ _ _ _ hw with h1 | h1
      · exact ⟨s, h1, hs⟩
      · exact h n w h1

theorem runOps_StoredOK (ops : List Op) :
    ∀ obj : ObjDict, StoredOK obj → StoredOK (runOps obj ops) := by
  induction ops with
  | nil =>
    intro obj h
    exact h
  | cons op rest ih =>
    intro obj h
    simp only [runOps, List.foldl_cons]
    exact ih (runOp obj op) (runOp_preserves_StoredOK obj op h)

/-- C8 amended: in every state reachable from a fresh `Flow` by get/set
operations, each stored value is a string of the shape
`digits.digits.digits.digits` (1-3 digits per octet) *or* such a string
followed by a single trailing newline (storable because of the `$` anchor's
newline allowance). -/
theorem C8_amended_invariant (ops : List Op) (n : String) (v : Value)
    (h : py_getattr (runOps Flow.new ops) n = some v) :
    ∃ s : String, v = Value.str s ∧
      (QuadL s.data ∨ ∃ t : List Char, s.data = t ++ ['\n'] ∧ QuadL t) := by
  have h0 : StoredOK Flow.new := by
    intro n v hv
    simp [Flow.new, py_getattr] at hv
  obtain ⟨s, rfl, hs⟩ := runOps_StoredOK ops Flow.new h0 n v h
  exact ⟨s, rfl, (ipv4_pattern_match_iff s.data).mp hs⟩

/-- Witness for C8's amended invariant after one accepted write. -/
theorem C8_witness :
    ∃ s : String, Value.str "2.2.2.2" = Value.str s ∧
      (QuadL s.data ∨ ∃ t : List Char, s.data = t ++ ['\n'] ∧ QuadL t) :=
  C8_amended_invariant [Op.set FieldName.src_ipv4 (Value.str "2.2.2.2")]
    "_src_ipv4" (Value.str "2.2.2.2") (by decide)

/-- C9: for every string of the strict quad language, appending one newline
yields a string outside that language which `validate` still accepts,
because the compiled pattern's `$` also matches just before a trailing
newline. -/
theorem C9_trailing_newline_accepted (s : String) (h : QuadL s.data) :
    IPv4.validate (Value.str (s ++ "\n")) = Except.ok () ∧
    ¬ QuadL (s ++ "\n").data := by
  have hd : (s ++ "\n").data = s.data ++ ['\n'] := String.data_append s "\n"
  constructor
  · have hm : ipv4_pattern_match (s.data ++ ['\n']) = true := by
      rw [ipv4_pattern_match_iff]
      exact Or.inr ⟨s.data, rfl, h⟩
    simp [IPv4.validate, hd, hm]
  · rw [hd]
    exact not_QuadL_append_newline s.data

/-- Witness for C9 at `"1.2.3.4\n"`. -/
theorem C9_witness :
    IPv4.validate (Value.str ("1.2.3.4" ++ "\n")) = Except.ok () ∧
    ¬ QuadL ("1.2.3.4" ++ "\n").data :=
  C9_trailing_newline_accepted "1.2.3.4" ((quadMatch_iff_QuadL _).mp (by decide))

/-- C10: the two fields store under distinct private underscore-prefixed
slots, so a successful write to one field leaves every read of the other
field (value and emitted log alike) exactly as before. -/
theorem C10_set_frames_other_fields (obj o2 : ObjDict) (f g : FieldName)
    (v : Value) (lg : List LogEntry) (hfg : f ≠ g)
    (h : Flow.set obj f v = (Except.ok o2, lg)) :
    (Flow.field f).property_name ≠ (Flow.field g).property_name ∧
    Flow.get o2 g = Flow.get obj g := by
  refine ⟨Flow.field_name_ne f g hfg, ?_⟩
  unfold Flow.set PropertyWithValidator.set at h
  cases hv : IPv4.validate v with
  | error e =>
    rw [hv] at h
    simp at h
  | ok u =>
    cases u
    rw [hv] at h
    simp only [Prod.mk.injEq, Except.ok.injEq] at h
    obtain ⟨h1, -⟩ := h
    subst h1
    unfold Flow.get PropertyWithValidator.get
    rw [py_getattr_setattr_ne _ _ _ _ (Flow.field_name_ne f g hfg)]

/-- Witness for C10: writing `src_ipv4` on a flow whose `dst_ipv4` holds
`"3.3.3.3"` leaves every read of `dst_ipv4` unchanged. -/
theorem C10_witness :
    (Flow.field FieldName.src_ipv4).property_name ≠
      (Flow.field FieldName.dst_ipv4).property_name ∧
    Flow.get [("_dst_ipv4", Value.str "3.3.3.3"),
              ("_src_ipv4", Value.str "2.2.2.2")] FieldName.dst_ipv4 =
      Flow.get [("_dst_ipv4", Value.str "3.3.3.3")] FieldName.dst_ipv4 :=
  C10_set_frames_other_fields [("_dst_ipv4", Value.str "3.3.3.3")] _
    FieldName.src_ipv4 FieldName.dst_ipv4 (Value.str "2.2.2.2")
    [LogEntry.mk INFO "__set__: %r" (Value.str "2.2.2.2")]
    (by decide) (by decide)
